import Mathlib

/-!
# Verification of the RaterHub history-to-task extractor

Shallow embedding of `src/main.py` (the History-to-Task Extractor): the
linear transform that ingests browser-history rows, filters them by
month/year and URL pattern, extracts task IDs, converts timestamps from
UTC+7 to US Pacific, deduplicates by task ID and sorts.

Modelling conventions:
* pandas DataFrames become Lean lists of structures; pandas `NaN` cells
  become `Option` fields.
* `datetime` instants become `Int` seconds since the Unix epoch; the
  calendar arithmetic (`daysFromCivil` / `civilFromDays`) is the standard
  proleptic-Gregorian conversion, and the US/Pacific daylight-saving rule
  is the post-2007 US rule applied by the `pytz` zone data (second Sunday
  of March 10:00 UTC to first Sunday of November 09:00 UTC).
* `re.search` on the pattern `taskIds=(\d+)` becomes a leftmost-match
  scan over the character list (`extractFrom`), with `\d` modelled as the
  ASCII digits.
* date strings are parsed in the unambiguous ISO form `YYYY-MM-DD`
  (the common form accepted by the source's date parser); time strings in
  the `strptime` format `%H:%M:%S` (1-2 digit fields, range-checked).
-/

namespace RaterHub

/-- Calendar date as parsed from the input `date` column (line 47,
`pd.to_datetime(df['date'])`). -/
structure Date where
  year : Nat
  month : Nat
  day : Nat
deriving DecidableEq, Repr

/-- One input row of the uploaded history table. A pandas `NaN` in the
`url` column is `none` (the other columns are either unused by the
transform or fatal when unparseable, so they stay plain strings). -/
structure Row where
  order : String
  id : String
  date : String
  time : String
  title : String
  url : Option String
deriving DecidableEq, Repr

/-! ## Numeric string parsing -/

/-- A nonempty all-ASCII-digit character list read as a decimal number. -/
def parseNatDigits (cs : List Char) : Option Nat :=
  if !cs.isEmpty && cs.all Char.isDigit then
    some (cs.foldl (fun a c => a * 10 + (c.toNat - 48)) 0)
  else none

def isLeap (y : Nat) : Bool :=
  (y % 4 == 0 && y % 100 != 0) || y % 400 == 0

def daysInMonth (y m : Nat) : Nat :=
  if m == 2 then (if isLeap y then 29 else 28)
  else if m == 4 || m == 6 || m == 9 || m == 11 then 30
  else 31

/-- Split a character list on a separator character (the groups between
separators, like `str.split` on a one-character separator). -/
def splitOnChar (sep : Char) : List Char → List (List Char)
  | [] => [[]]
  | c :: rest =>
    if c == sep then [] :: splitOnChar sep rest
    else
      match splitOnChar sep rest with
      | [] => [[c]]
      | g :: gs => (c :: g) :: gs

/-- Date parsing (line 47, `pd.to_datetime`), modelled on the unambiguous
ISO form `YYYY-MM-DD` with a calendar-valid month and day. -/
def parseDate (s : String) : Option Date :=
  match splitOnChar '-' s.data with
  | [ys, ms, ds] =>
    match parseNatDigits ys, parseNatDigits ms, parseNatDigits ds with
    | some y, some m, some d =>
      if ys.length == 4 && (ms.length == 1 || ms.length == 2)
          && (ds.length == 1 || ds.length == 2)
          && decide (1 ≤ y) && decide (1 ≤ m) && decide (m ≤ 12)
          && decide (1 ≤ d) && decide (d ≤ daysInMonth y m) then
        some ⟨y, m, d⟩
      else none
    | _, _, _ => none
  | _ => none

/-- Time-of-day parsing, modelling `datetime.strptime` with format
`%H:%M:%S` (line 71): each field is 1-2 digits, hour at most 23, minute
at most 59, second at most 61 (the `strptime` leap-second allowance). -/
def parseTime (s : String) : Option (Nat × Nat × Nat) :=
  match splitOnChar ':' s.data with
  | [hs, ms, ss] =>
    match parseNatDigits hs, parseNatDigits ms, parseNatDigits ss with
    | some h, some mi, some sec =>
      if (hs.length == 1 || hs.length == 2) && (ms.length == 1 || ms.length == 2)
          && (ss.length == 1 || ss.length == 2)
          && decide (h ≤ 23) && decide (mi ≤ 59) && decide (sec ≤ 61) then
        some (h, mi, sec)
      else none
    | _, _, _ => none
  | _ => none

/-! ## Proleptic-Gregorian calendar arithmetic -/

/-- Days from 1970-01-01 to the civil date `y-m-d` (standard
days-from-civil algorithm). -/
def daysFromCivil (y m d : Nat) : Int :=
  let yi : Int := if m ≤ 2 then (y : Int) - 1 else (y : Int)
  let era : Int := Int.ediv yi 400
  let yoe : Int := yi - era * 400
  let mp : Nat := (m + 9) % 12
  let doy : Int := ((153 * mp + 2) / 5 + d - 1 : Nat)
  let doe : Int := yoe * 365 + Int.ediv yoe 4 - Int.ediv yoe 100 + doy
  era * 146097 + doe - 719468

/-- Civil date `(year, month, day)` of the day `z0` days after
1970-01-01 (standard civil-from-days algorithm). -/
def civilFromDays (z0 : Int) : Int × Nat × Nat :=
  let z := z0 + 719468
  let era : Int := Int.ediv z 146097
  let doe : Nat := (z - era * 146097).toNat
  let yoe : Nat := (doe - doe / 1460 + doe / 36524 - doe / 146096) / 365
  let y : Int := (yoe : Int) + era * 400
  let doy : Nat := doe - (365 * yoe + yoe / 4 - yoe / 100)
  let mp : Nat := (5 * doy + 2) / 153
  let d : Nat := doy - (153 * mp + 2) / 5 + 1
  let m : Nat := if mp < 10 then mp + 3 else mp - 9
  if m ≤ 2 then (y + 1, m, d) else (y, m, d)

/-- Day of week with Sunday = 0, of the day `days` days after 1970-01-01
(which was a Thursday). -/
def weekday (days : Int) : Nat := (Int.emod (days + 4) 7).toNat

/-- Calendar day (of March) of the second Sunday of March of year `y`. -/
def secondSundayOfMarch (y : Nat) : Nat :=
  8 + (7 - weekday (daysFromCivil y 3 1)) % 7

/-- Calendar day (of November) of the first Sunday of November of year `y`. -/
def firstSundayOfNovember (y : Nat) : Nat :=
  1 + (7 - weekday (daysFromCivil y 11 1)) % 7

/-- Whether the UTC instant `utc` (seconds since the epoch) falls in the
US/Pacific daylight-saving window: from the second Sunday of March at
02:00 standard (10:00 UTC) to the first Sunday of November at 02:00
daylight (09:00 UTC).  This is the rule the `pytz` `US/Pacific` zone
applies for the years this tool processes. -/
def inDstPacific (utc : Int) : Bool :=
  let y := (civilFromDays (Int.ediv utc 86400)).1
  if y < 1 then false
  else
    let yn := y.toNat
    let dstStart := daysFromCivil yn 3 (secondSundayOfMarch yn) * 86400 + 10 * 3600
    let dstStop := daysFromCivil yn 11 (firstSundayOfNovember yn) * 86400 + 9 * 3600
    decide (dstStart ≤ utc ∧ utc < dstStop)

/-! ## Timestamp rendering (`strftime('%Y-%m-%d %H:%M:%S')`) -/

/-- The `w` base-10 digits of `n % 10^w`, most significant first. -/
def natDigits : Nat → Nat → List Nat
  | 0, _ => []
  | w + 1, n => natDigits w (n / 10) ++ [n % 10]

/-- Zero-padded `w`-character decimal rendering of `n`. -/
def padNum (w n : Nat) : List Char :=
  (natDigits w n).map fun d => Char.ofNat (48 + d)

/-- Civil fields of an epoch-seconds instant. -/
structure Civil where
  year : Int
  month : Nat
  day : Nat
  hour : Nat
  minute : Nat
  second : Nat
deriving DecidableEq, Repr

def secsToCivil (t : Int) : Civil :=
  let c := civilFromDays (Int.ediv t 86400)
  let sod := (Int.emod t 86400).toNat
  ⟨c.1, c.2.1, c.2.2, sod / 3600, sod / 60 % 60, sod % 60⟩

/-- `strftime('%Y-%m-%d %H:%M:%S')` on an epoch-seconds instant
(lines 81 and 103). -/
def renderTs (t : Int) : String :=
  let c := secsToCivil t
  ⟨padNum 4 c.year.toNat ++ ['-'] ++ padNum 2 c.month ++ ['-'] ++ padNum 2 c.day
    ++ [' '] ++ padNum 2 c.hour ++ [':'] ++ padNum 2 c.minute ++ [':'] ++ padNum 2 c.second⟩

/-! ## URL predicates -/

/-- `pat` occurs as a contiguous subsequence of `s`. -/
def containsSeq (pat : List Char) : List Char → Bool
  | [] => pat.isEmpty
  | c :: rest => pat.isPrefixOf (c :: rest) || containsSeq pat rest

/-- Line 54: `str.contains('raterhub', case=False)` — the lowercased URL
contains the substring "raterhub". -/
def containsRaterhub (s : String) : Bool :=
  containsSeq "raterhub".data (s.data.map Char.toLower)

/-- The pattern prefix of `re.search(r'taskIds=(\d+)', url)`. -/
def taskPat : List Char := "taskIds=".data

/-- Leftmost-match scan for `taskIds=(\d+)`: at the first position where
the literal `taskIds=` is followed by at least one ASCII digit, capture
the maximal digit run (lines 60-62). -/
def extractFrom : List Char → Option String
  | [] => none
  | c :: rest =>
    if taskPat.isPrefixOf (c :: rest) then
      let ds := ((c :: rest).drop 8).takeWhile Char.isDigit
      if ds.isEmpty then extractFrom rest else some ⟨ds⟩
    else extractFrom rest

/-- `extract_task_id` (lines 60-62): `re.search(r'taskIds=(\d+)', url)`,
returning the captured digit group of the leftmost match, else `None`. -/
def extract_task_id (url : String) : Option String :=
  extractFrom url.data

/-! ## Timezone conversion (`convert_to_pacific`, lines 67-83) -/

/-- The row-scoped error string built by the `except` branch at line 83. -/
def errPlaceholder (e : String) : String := "Error converting time: " ++ e

/-- Earliest instant representable by Python `datetime` (year 1). -/
def minDatetime : Int := daysFromCivil 1 1 1 * 86400

/-- `convert_to_pacific` (lines 67-83): combine the parsed date with the
time-of-day string, interpret in fixed UTC+7 (Asia/Bangkok), convert to
US/Pacific.  A time string that does not parse (the `strptime` at line
71), or a result before year 1 (outside Python `datetime`'s range),
produces the `Error converting time: ...` placeholder instead. -/
def convert_to_pacific (d : Date) (t : String) : Except String Int :=
  match parseTime t with
  | none => .error (errPlaceholder ("time data does not match format: " ++ t))
  | some (h, mi, s) =>
    let gmt7 : Int := daysFromCivil d.year d.month d.day * 86400
      + ((h * 3600 + mi * 60 + s : Nat) : Int)
    let utc := gmt7 - 7 * 3600
    let pac := utc - (if inDstPacific utc then 7 else 8) * 3600
    if pac < minDatetime then .error (errPlaceholder "date value out of range")
    else .ok pac

/-! ## Pipeline stages -/

/-- Row after the whole-column date parse at line 47 succeeded. -/
structure PRow where
  order : String
  id : String
  date : Date
  time : String
  title : String
  url : Option String
deriving DecidableEq, Repr

/-- Line 47: `pd.to_datetime(df['date'])` parses every row's date before
any filtering; any unparseable value raises, which the top-level handler
at line 139 turns into a whole-run failure. -/
def parseAllDates : List Row → Except String (List PRow)
  | [] => .ok []
  | r :: rest =>
    match parseDate r.date with
    | none => .error ("Unknown datetime string format: " ++ r.date)
    | some d =>
      match parseAllDates rest with
      | .error e => .error e
      | .ok t => .ok (⟨r.order, r.id, d, r.time, r.title, r.url⟩ :: t)

/-- Lines 48-51: keep rows whose parsed date has the selected month and
year. -/
def monthFilter (month_num target_year : Nat) (l : List PRow) : List PRow :=
  l.filter fun r => r.date.month == month_num && r.date.year == target_year

/-- Row of `raterhub_df`: the URL is known non-null (line 54's `na=False`
drops null URLs).  The unused `order`/`id`/`title` columns, which the code
carries along until the projection at line 90, are dropped here since no
later step reads them. -/
structure URow where
  date : Date
  time : String
  url : String
deriving DecidableEq, Repr

/-- Line 54: keep rows whose URL contains "raterhub" case-insensitively;
null URLs are excluded (`na=False`). -/
def raterhubFilter (l : List PRow) : List URow :=
  l.filterMap fun r =>
    match r.url with
    | none => none
    | some u => if containsRaterhub u then some ⟨r.date, r.time, u⟩ else none

/-- Row of `raterhub_df` after the derived `task_id` (line 64) and
`pacific_time` (lines 85-87) columns are added. -/
structure VRow where
  date : Date
  time : String
  url : String
  task_id : Option String
  pacific : Except String Int
deriving Repr

def addDerived (l : List URow) : List VRow :=
  l.map fun r => ⟨r.date, r.time, r.url, extract_task_id r.url, convert_to_pacific r.date r.time⟩

/-- Row of `result_df` after the projection at line 90 and the
`dropna(subset=['Task ID'])` at line 94.  `date` is a ghost provenance
field (the code no longer carries the source date; the model keeps it to
state month-filter claims about output rows). -/
structure NRow where
  date : Date
  url : String
  task_id : String
  pacific : Except String Int
deriving Repr

/-- Lines 90-94: project to (pacific, url, task id) and drop rows whose
task id is null. -/
def dropNullTasks (l : List VRow) : List NRow :=
  l.filterMap fun r => r.task_id.map fun t => ⟨r.date, r.url, t, r.pacific⟩

/-- Line 97: `pd.to_datetime` over the pacific-time column raises on the
first value that is an error placeholder rather than a timestamp. -/
def firstConvError : List NRow → Option String
  | [] => none
  | r :: rest =>
    match r.pacific with
    | .error e => some e
    | .ok _ => firstConvError rest

/-- Final output row: the re-parsed pacific instant (line 97), its
rendering (line 103), the URL and task-id columns, plus the ghost source
date. -/
structure OutRow where
  pacific : Int
  rendered : String
  url : String
  task_id : String
  date : Date
deriving DecidableEq, Repr

/-- Line 97 when no value is an error placeholder: every row's pacific
string parses back to the instant it rendered. -/
def toOutRows (l : List NRow) : List OutRow :=
  l.filterMap fun r =>
    match r.pacific with
    | .error _ => none
    | .ok p => some ⟨p, renderTs p, r.url, r.task_id, r.date⟩

/-- Line 100: `drop_duplicates(subset=['Task ID'])` — keep the first row
(in current order) of each task id; `seen` holds the task ids already
kept. -/
def dedupTasks : List OutRow → List String → List OutRow
  | [], _ => []
  | r :: rest, seen =>
    if seen.contains r.task_id then dedupTasks rest seen
    else r :: dedupTasks rest (r.task_id :: seen)

/-- Line 102's sort key: ascending pacific instant. -/
def pacLE (a b : OutRow) : Prop := a.pacific ≤ b.pacific

instance : DecidableRel pacLE := fun a b => (inferInstance : Decidable (a.pacific ≤ b.pacific))

instance : IsTotal OutRow pacLE := ⟨fun a b => Int.le_total a.pacific b.pacific⟩

instance : IsTrans OutRow pacLE := ⟨fun _ _ _ => Int.le_trans⟩

/-! ## The whole run -/

/-- Statistics block (lines 118-126) together with the final table. -/
structure Output where
  table : List OutRow
  total_tasks : Nat
  total_visits : Nat
  duplicates_removed : Option Nat
deriving DecidableEq, Repr

/-- Outcome of one invocation on an uploaded file:
* `schemaError` — the column check at lines 36-37 failed;
* `fatalError` — an exception reached the top-level handler at line 139
  (unparseable date at line 47, or an error placeholder reaching the
  `pd.to_datetime` at line 97);
* `noMatches` — the empty-`raterhub_df` warning at lines 56-57 (no table
  and no statistics are produced);
* `ok` — the table and statistics are displayed. -/
inductive RunResult where
  | schemaError : RunResult
  | fatalError : String → RunResult
  | noMatches : RunResult
  | ok : Output → RunResult
deriving DecidableEq, Repr

/-- Line 35. -/
def requiredColumns : List String := ["order", "id", "date", "time", "title", "url"]

/-- The History-to-Task Extractor (lines 29-137): the full transform from
the uploaded table (column names plus rows) and the selected month/year
to the displayed outcome. -/
def run (cols : List String) (rows : List Row) (month_num target_year : Nat) : RunResult :=
  if requiredColumns.all (fun c => cols.contains c) then
    match parseAllDates rows with
    | .error e => .fatalError e
    | .ok prows =>
      let raterhub := raterhubFilter (monthFilter month_num target_year prows)
      if raterhub.isEmpty then .noMatches
      else
        let visits := dropNullTasks (addDerived raterhub)
        match firstConvError visits with
        | some e => .fatalError e
        | none =>
          let table := List.insertionSort pacLE (dedupTasks (toOutRows visits) [])
          let tt := table.length
          let tv := visits.length
          .ok ⟨table, tt, tv, if tt < tv then some (tv - tt) else none⟩
  else .schemaError

/-! ## Concrete inputs for the scenario claims -/

/-- The six required column names, as uploaded. -/
def stdCols : List String := ["order", "id", "date", "time", "title", "url"]

/-- Scenario A's single row. -/
def rowA : Row := ⟨"1", "a", "2024-03-15", "09:00:00", "t", some "https://raterhub.com/x?taskIds=12345"⟩

/-- Duplicate task 12345, chronologically later but first in input order. -/
def rowLate : Row := ⟨"1", "a", "2024-03-15", "10:00:00", "t", some "https://raterhub.com/a?taskIds=12345"⟩

/-- Duplicate task 12345, chronologically earlier but second in input order. -/
def rowEarly : Row := ⟨"2", "b", "2024-03-15", "09:00:00", "t", some "https://raterhub.com/b?taskIds=12345"⟩

/-- A row that converts fine. -/
def rowGood : Row := ⟨"1", "a", "2024-03-15", "09:00:00", "t", some "https://raterhub.com/a?taskIds=1"⟩

/-- A row with a malformed time string and a non-null task id. -/
def rowBadTime : Row := ⟨"2", "b", "2024-03-16", "bad-time", "t", some "https://raterhub.com/b?taskIds=2"⟩

/-- A raterhub row with no `taskIds=` pattern (scenario C). -/
def rowNoTask : Row := ⟨"1", "a", "2024-03-15", "09:00:00", "t", some "https://raterhub.com/nope"⟩

/-- A row whose URL is not a raterhub URL. -/
def rowOther : Row := ⟨"1", "a", "2024-03-15", "09:00:00", "t", some "https://example.com/x?taskIds=1"⟩

/-- A raterhub row with only a case-variant `TASKIDS=` pattern. -/
def rowCaseVariant : Row := ⟨"1", "a", "2024-03-15", "09:00:00", "t", some "https://raterhub.com/x?TASKIDS=123"⟩

/-- A second row with a distinct task id, one hour later. -/
def rowB : Row := ⟨"2", "b", "2024-03-15", "10:00:00", "t", some "https://raterhub.com/y?taskIds=67890"⟩

/-- First output row of the two-task input `[rowA, rowB]`. -/
def outRowA : OutRow :=
  ⟨1710442800, "2024-03-14 19:00:00", "https://raterhub.com/x?taskIds=12345",
   "12345", ⟨2024, 3, 15⟩⟩

/-- Expected output for the two-task input `[rowA, rowB]`. -/
def outAB : Output :=
  ⟨[⟨1710442800, "2024-03-14 19:00:00", "https://raterhub.com/x?taskIds=12345",
     "12345", ⟨2024, 3, 15⟩⟩,
    ⟨1710446400, "2024-03-14 20:00:00", "https://raterhub.com/y?taskIds=67890",
     "67890", ⟨2024, 3, 15⟩⟩], 2, 2, none⟩

/-- The regex `taskIds=(\d+)` matches at position `i` of `s`. -/
def patMatchAt (s : List Char) (i : Nat) : Prop :=
  taskPat.isPrefixOf (s.drop i) = true ∧ (s.drop (i + 8)).takeWhile Char.isDigit ≠ []

/-- The captured digit group of a match at position `i`. -/
def capturedAt (s : List Char) (i : Nat) : List Char :=
  (s.drop (i + 8)).takeWhile Char.isDigit


/-- The rows counted by `total_visits` at line 122: raterhub rows of the
selected month with a non-null task id, before deduplication. -/
def visitsOf (m y : Nat) (prows : List PRow) : List NRow :=
  dropNullTasks (addDerived (raterhubFilter (monthFilter m y prows)))

/-! ## Inversion and membership lemmas -/

theorem run_ok_inv {cols : List String} {rows : List Row} {m y : Nat} {out : Output}
    (h : run cols rows m y = .ok out) :
    ∃ prows, parseAllDates rows = .ok prows ∧
      firstConvError (visitsOf m y prows) = none ∧
      out = ⟨List.insertionSort pacLE (dedupTasks (toOutRows (visitsOf m y prows)) []),
             (List.insertionSort pacLE (dedupTasks (toOutRows (visitsOf m y prows)) [])).length,
             (visitsOf m y prows).length,
             if (List.insertionSort pacLE (dedupTasks (toOutRows (visitsOf m y prows)) [])).length
                < (visitsOf m y prows).length
             then some ((visitsOf m y prows).length
                - (List.insertionSort pacLE (dedupTasks (toOutRows (visitsOf m y prows)) [])).length)
             else none⟩ := by
  unfold run at h
  split at h
  · cases hp : parseAllDates rows with
    | error e => rw [hp] at h; cases h
    | ok prows =>
      rw [hp] at h
      simp only at h
      split at h
      · cases h
      · split at h
        · cases h
        · next hf =>
          refine ⟨prows, rfl, ?_, ?_⟩
          · exact hf
          · cases h; rfl
  · cases h


theorem dedupTasks_subset {o : OutRow} : ∀ (l : List OutRow) (seen : List String),
    o ∈ dedupTasks l seen → o ∈ l := by
  intro l
  induction l with
  | nil => intro seen h; cases h
  | cons r rest ih =>
    intro seen h
    unfold dedupTasks at h
    split at h
    · exact List.mem_cons_of_mem _ (ih _ h)
    · rcases List.mem_cons.1 h with h1 | h2
      · exact h1 ▸ List.mem_cons_self _ _
      · exact List.mem_cons_of_mem _ (ih _ h2)

theorem dedupTasks_nodup : ∀ (l : List OutRow) (seen : List String),
    (dedupTasks l seen).Pairwise (fun a b => a.task_id ≠ b.task_id) ∧
    ∀ o ∈ dedupTasks l seen, ¬ seen.contains o.task_id := by
  intro l
  induction l with
  | nil => intro seen; exact ⟨List.Pairwise.nil, by intro o h; cases h⟩
  | cons r rest ih =>
    intro seen
    unfold dedupTasks
    split
    · exact ih seen
    · next hns =>
      constructor
      · refine List.Pairwise.cons ?_ (ih (r.task_id :: seen)).1
        intro b hb hbe
        have := (ih (r.task_id :: seen)).2 b hb
        exact this (by simp [hbe])
      · intro o ho
        rcases List.mem_cons.1 ho with h1 | h2
        · exact h1 ▸ hns
        · have := (ih (r.task_id :: seen)).2 o h2
          intro hcon
          exact this (by simp at hcon ⊢; exact Or.inr hcon)

theorem mem_toOutRows {o : OutRow} {l : List NRow} (h : o ∈ toOutRows l) :
    ∃ n ∈ l, n.pacific = .ok o.pacific ∧ o.rendered = renderTs o.pacific ∧
      o.url = n.url ∧ o.task_id = n.task_id ∧ o.date = n.date := by
  rcases List.mem_filterMap.1 h with ⟨n, hn, he⟩
  refine ⟨n, hn, ?_⟩
  cases hp : n.pacific with
  | error e => rw [hp] at he; cases he
  | ok p => rw [hp] at he; cases he; exact ⟨rfl, rfl, rfl, rfl, rfl⟩

theorem mem_dropNullTasks {n : NRow} {l : List VRow} (h : n ∈ dropNullTasks l) :
    ∃ v ∈ l, v.task_id = some n.task_id ∧ n.pacific = v.pacific ∧
      n.url = v.url ∧ n.date = v.date := by
  rcases List.mem_filterMap.1 h with ⟨v, hv, he⟩
  cases ht : v.task_id with
  | none => rw [ht] at he; cases he
  | some t =>
    rw [ht] at he
    cases he
    exact ⟨v, hv, ht, rfl, rfl, rfl⟩

theorem mem_addDerived {v : VRow} {l : List URow} (h : v ∈ addDerived l) :
    ∃ u ∈ l, v = ⟨u.date, u.time, u.url, extract_task_id u.url, convert_to_pacific u.date u.time⟩ := by
  rcases List.mem_map.1 h with ⟨u, hu, he⟩
  exact ⟨u, hu, he.symm⟩

theorem mem_raterhubFilter {u : URow} {l : List PRow} (h : u ∈ raterhubFilter l) :
    ∃ p ∈ l, p.url = some u.url ∧ containsRaterhub u.url = true ∧
      u.date = p.date ∧ u.time = p.time := by
  rcases List.mem_filterMap.1 h with ⟨p, hp, he⟩
  cases hu : p.url with
  | none => rw [hu] at he; cases he
  | some s =>
    rw [hu] at he
    dsimp only at he
    by_cases hc : containsRaterhub s = true
    · rw [if_pos hc] at he
      cases Option.some.inj he
      exact ⟨p, hp, hu, hc, rfl, rfl⟩
    · rw [if_neg hc] at he
      cases he

theorem mem_monthFilter {p : PRow} {m y : Nat} {l : List PRow} (h : p ∈ monthFilter m y l) :
    p ∈ l ∧ p.date.month = m ∧ p.date.year = y := by
  have hmf := List.mem_filter.1 h
  have hb := hmf.2
  simp only [Bool.and_eq_true, beq_iff_eq] at hb
  exact ⟨hmf.1, hb.1, hb.2⟩

/-- Provenance of an output-table row. -/
theorem mem_table_src {m y : Nat} {prows : List PRow} {o : OutRow}
    (ho : o ∈ List.insertionSort pacLE (dedupTasks (toOutRows (visitsOf m y prows)) [])) :
    ∃ p ∈ prows, p.date.month = m ∧ p.date.year = y ∧
      p.url = some o.url ∧ containsRaterhub o.url = true ∧
      extract_task_id o.url = some o.task_id ∧
      convert_to_pacific p.date p.time = .ok o.pacific ∧
      o.rendered = renderTs o.pacific ∧ o.date = p.date := by
  have h1 : o ∈ dedupTasks (toOutRows (visitsOf m y prows)) [] :=
    (List.mem_insertionSort pacLE).1 ho
  have h2 := dedupTasks_subset _ _ h1
  rcases mem_toOutRows h2 with ⟨n, hn, hpac, hrend, hurl, htid, hdate⟩
  rcases mem_dropNullTasks hn with ⟨v, hv, hvt, hvp, hvu, hvd⟩
  rcases mem_addDerived hv with ⟨u, hu, hve⟩
  rcases mem_raterhubFilter hu with ⟨p, hp, hpu, hpc, hud, hut⟩
  rcases mem_monthFilter hp with ⟨hpp, hpm, hpy⟩
  subst hve
  have hvt' : extract_task_id u.url = some n.task_id := hvt
  have hvp' : n.pacific = convert_to_pacific u.date u.time := hvp
  have hvu' : n.url = u.url := hvu
  have hvd' : n.date = u.date := hvd
  refine ⟨p, hpp, hpm, hpy, ?_, ?_, ?_, ?_, hrend, ?_⟩
  · rw [hurl, hvu']; exact hpu
  · rw [hurl, hvu']; exact hpc
  · rw [hurl, hvu', htid]; exact hvt'
  · rw [← hud, ← hut, ← hvp', hpac]
  · rw [hdate, hvd', hud]

theorem run_eq_after_parse {cols : List String} {rows : List Row} {m y : Nat} {prows : List PRow}
    (hcols : requiredColumns.all (fun c => cols.contains c) = true)
    (hp : parseAllDates rows = .ok prows) :
    run cols rows m y =
      (if (raterhubFilter (monthFilter m y prows)).isEmpty then .noMatches
       else
        match firstConvError (visitsOf m y prows) with
        | some e => .fatalError e
        | none =>
          .ok ⟨List.insertionSort pacLE (dedupTasks (toOutRows (visitsOf m y prows)) []),
               (List.insertionSort pacLE (dedupTasks (toOutRows (visitsOf m y prows)) [])).length,
               (visitsOf m y prows).length,
               if (List.insertionSort pacLE (dedupTasks (toOutRows (visitsOf m y prows)) [])).length
                  < (visitsOf m y prows).length
               then some ((visitsOf m y prows).length
                  - (List.insertionSort pacLE (dedupTasks (toOutRows (visitsOf m y prows)) [])).length)
               else none⟩) := by
  unfold run
  rw [if_pos hcols, hp]
  rfl

theorem dropNullTasks_addDerived_nil {l : List URow}
    (h : ∀ u ∈ l, extract_task_id u.url = none) :
    dropNullTasks (addDerived l) = [] := by
  induction l with
  | nil => rfl
  | cons u rest ih =>
    unfold addDerived dropNullTasks
    simp only [List.map_cons, List.filterMap_cons]
    rw [h u (List.mem_cons_self u rest)]
    exact ih fun v hv => h v (List.mem_cons_of_mem u hv)

theorem patMatchAt_succ (c : Char) (rest : List Char) (j : Nat) :
    patMatchAt (c :: rest) (j + 1) ↔ patMatchAt rest j := by
  unfold patMatchAt
  have h8 : j + 1 + 8 = (j + 8) + 1 := by omega
  rw [h8, List.drop_succ_cons, List.drop_succ_cons]

theorem capturedAt_succ (c : Char) (rest : List Char) (j : Nat) :
    capturedAt (c :: rest) (j + 1) = capturedAt rest j := by
  unfold capturedAt
  have h8 : j + 1 + 8 = (j + 8) + 1 := by omega
  rw [h8, List.drop_succ_cons]

theorem extractFrom_spec (s : List Char) :
    (∀ t, extractFrom s = some t →
      ∃ i, patMatchAt s i ∧ (∀ j, j < i → ¬ patMatchAt s j) ∧ t = String.mk (capturedAt s i)) ∧
    (extractFrom s = none → ∀ i, ¬ patMatchAt s i) := by
  induction s with
  | nil =>
    constructor
    · intro t ht; cases ht
    · intro _ i hm
      rcases hm with ⟨hpre, _⟩
      rw [List.drop_nil] at hpre
      cases hpre
  | cons c rest ih =>
    by_cases hpre : taskPat.isPrefixOf (c :: rest) = true
    · by_cases hds : ((c :: rest).drop 8).takeWhile Char.isDigit = []
      · -- pattern matches at 0 but captures nothing: scan continues from rest
        have hstep : extractFrom (c :: rest) = extractFrom rest := by
          simp only [extractFrom]
          rw [if_pos hpre]
          simp only [List.isEmpty_iff]
          rw [if_pos hds]
        have hnot0 : ¬ patMatchAt (c :: rest) 0 := by
          intro hm
          exact hm.2 (by simpa using hds)
        constructor
        · intro t ht
          rw [hstep] at ht
          rcases ih.1 t ht with ⟨i, hi, hmin, hcap⟩
          refine ⟨i + 1, (patMatchAt_succ c rest i).2 hi, ?_, by rw [capturedAt_succ]; exact hcap⟩
          intro j hj
          cases j with
          | zero => exact hnot0
          | succ j' =>
            rw [patMatchAt_succ]
            exact hmin j' (by omega)
        · intro hn i
          rw [hstep] at hn
          cases i with
          | zero => exact hnot0
          | succ j' =>
            rw [patMatchAt_succ]
            exact ih.2 hn j'
      · -- match at 0
        have hstep : extractFrom (c :: rest) = some ⟨((c :: rest).drop 8).takeWhile Char.isDigit⟩ := by
          simp only [extractFrom]
          rw [if_pos hpre]
          simp only [List.isEmpty_iff]
          rw [if_neg hds]
        constructor
        · intro t ht
          rw [hstep] at ht
          cases Option.some.inj ht
          exact ⟨0, ⟨by simpa using hpre, by simpa using hds⟩, by omega, rfl⟩
        · intro hn
          rw [hstep] at hn
          cases hn
    · have hstep : extractFrom (c :: rest) = extractFrom rest := by
        simp only [extractFrom]
        rw [if_neg hpre]
      have hnot0 : ¬ patMatchAt (c :: rest) 0 := by
        intro hm
        exact hpre (by simpa using hm.1)
      constructor
      · intro t ht
        rw [hstep] at ht
        rcases ih.1 t ht with ⟨i, hi, hmin, hcap⟩
        refine ⟨i + 1, (patMatchAt_succ c rest i).2 hi, ?_, by rw [capturedAt_succ]; exact hcap⟩
        intro j hj
        cases j with
        | zero => exact hnot0
        | succ j' =>
          rw [patMatchAt_succ]
          exact hmin j' (by omega)
      · intro hn i
        rw [hstep] at hn
        cases i with
        | zero => exact hnot0
        | succ j' =>
          rw [patMatchAt_succ]
          exact ih.2 hn j'


/-! ## Claim theorems -/

/-- Claim C8: on the single-row input with date 2024-03-15, time 09:00:00
and url `https://raterhub.com/x?taskIds=12345`, run with target month
March and year 2024, the output is exactly one row with task id "12345"
and Pacific timestamp `2024-03-14 19:00:00` (UTC+7 09:00 converted to US
Pacific, daylight saving in effect), with one task and one visit
counted. -/
theorem c8_scenario_a :
    run stdCols [rowA] 3 2024 =
      .ok ⟨[⟨1710442800, "2024-03-14 19:00:00", "https://raterhub.com/x?taskIds=12345",
             "12345", ⟨2024, 3, 15⟩⟩], 1, 1, none⟩ := by
  decide

/-- Claim C1 (divergence witness): the deduplication at line 100 runs
before the sort at line 102, so of two surviving rows sharing task id
"12345" it keeps the one that comes first in input order — here the
chronologically later instant 2024-03-14 20:00:00 — and discards the
earlier 2024-03-14 19:00:00 row, contradicting the claim that the
chronologically earliest duplicate is kept. -/
theorem c1_dedup_keeps_input_order_first :
    run stdCols [rowLate, rowEarly] 3 2024 =
      .ok ⟨[⟨1710446400, "2024-03-14 20:00:00", "https://raterhub.com/a?taskIds=12345",
             "12345", ⟨2024, 3, 15⟩⟩], 1, 2, some 1⟩ ∧
    convert_to_pacific ⟨2024, 3, 15⟩ "09:00:00" = .ok 1710442800 ∧
    (1710442800 : Int) < 1710446400 := by
  refine ⟨by decide, rfl, by decide⟩

/-- Claim C2 (divergence witness): a row whose timezone conversion fails
does get the `Error converting time: ...` placeholder (line 83), but when
that row survives the task-id filter the placeholder reaches the
`pd.to_datetime` at line 97, which raises; the top-level handler at line
139 then aborts the whole run, so no output is produced for the remaining
(well-formed) rows. -/
theorem c2_conversion_failure_is_fatal :
    convert_to_pacific ⟨2024, 3, 16⟩ "bad-time" =
      .error (errPlaceholder "time data does not match format: bad-time") ∧
    run stdCols [rowGood, rowBadTime] 3 2024 =
      .fatalError (errPlaceholder "time data does not match format: bad-time") := by
  refine ⟨rfl, by decide⟩

/-- Claim C3 (amended): only when the URL filter (with the month filter)
leaves zero rows does the code report the "no matches" warning — and then
no statistics are computed at all; when a later step leaves zero rows the
run instead completes normally with an empty table and
`total_tasks = total_visits = 0`, without the no-matches report. -/
theorem c3_empty_result_policy {cols : List String} {rows : List Row} {m y : Nat}
    {prows : List PRow}
    (hcols : requiredColumns.all (fun c => cols.contains c) = true)
    (hp : parseAllDates rows = .ok prows) :
    (raterhubFilter (monthFilter m y prows) = [] → run cols rows m y = .noMatches) ∧
    (raterhubFilter (monthFilter m y prows) ≠ [] →
      (∀ u ∈ raterhubFilter (monthFilter m y prows), extract_task_id u.url = none) →
      run cols rows m y = .ok ⟨[], 0, 0, none⟩) := by
  constructor
  · intro hemp
    rw [run_eq_after_parse hcols hp, hemp]
    rfl
  · intro hne hall
    rw [run_eq_after_parse hcols hp]
    have hvis : visitsOf m y prows = [] := dropNullTasks_addDerived_nil hall
    rw [if_neg (by simpa [List.isEmpty_iff] using hne)]
    rw [hvis]
    rfl

/-- Counterexample for C3 as stated: a raterhub row without a `taskIds=`
pattern leaves zero rows after step 7, yet the run does not report the
no-matches condition — it completes as an ordinary (empty) result. -/
theorem c3_counterexample_no_report_after_step7 :
    run stdCols [rowNoTask] 3 2024 = .ok ⟨[], 0, 0, none⟩ ∧
    run stdCols [rowNoTask] 3 2024 ≠ .noMatches := by
  refine ⟨by decide, by decide⟩

/-- Witness for C3 (amended), at concrete inputs: a non-raterhub input
triggers the warning; a raterhub input whose rows have no task ids
completes with zeroed statistics. -/
theorem c3_empty_result_policy_witness :
    run stdCols [rowOther] 3 2024 = .noMatches ∧
    run stdCols [rowNoTask] 3 2024 = .ok ⟨[], 0, 0, none⟩ := by
  constructor
  · exact (c3_empty_result_policy (by decide)
      (show parseAllDates [rowOther] =
        .ok [⟨"1", "a", ⟨2024, 3, 15⟩, "09:00:00", "t", some "https://example.com/x?taskIds=1"⟩]
       from rfl)).1 (by decide)
  · exact (c3_empty_result_policy (by decide)
      (show parseAllDates [rowNoTask] =
        .ok [⟨"1", "a", ⟨2024, 3, 15⟩, "09:00:00", "t", some "https://raterhub.com/nope"⟩]
       from rfl)).2 (by decide) (by decide)

/-- Claim C4: in every successful run's output table, no two rows share a
task id (`drop_duplicates` at line 100, preserved by the sort at line
102). -/
theorem c4_output_task_ids_unique {cols : List String} {rows : List Row} {m y : Nat}
    {out : Output} (h : run cols rows m y = .ok out) :
    out.table.Pairwise (fun a b => a.task_id ≠ b.task_id) := by
  rcases run_ok_inv h with ⟨prows, _hp, _hf, hout⟩
  subst hout
  have hperm := List.perm_insertionSort pacLE (dedupTasks (toOutRows (visitsOf m y prows)) [])
  have hnd := (dedupTasks_nodup (toOutRows (visitsOf m y prows)) []).1
  exact (hperm.pairwise_iff fun hab hba => hab hba.symm).2 hnd

/-- Witness for C4 on a concrete two-task run. -/
theorem c4_output_task_ids_unique_witness :
    outAB.table.Pairwise (fun a b => a.task_id ≠ b.task_id) :=
  c4_output_task_ids_unique (show run stdCols [rowA, rowB] 3 2024 = .ok outAB by decide)

/-- Claim C5: every row of a successful run's output table comes from a
source row whose parsed (UTC+7) date has exactly the requested month and
year (lines 48-51). -/
theorem c5_month_year_filter {cols : List String} {rows : List Row} {m y : Nat}
    {out : Output} (h : run cols rows m y = .ok out) :
    ∀ o ∈ out.table, o.date.month = m ∧ o.date.year = y := by
  rcases run_ok_inv h with ⟨prows, _hp, _hf, hout⟩
  subst hout
  intro o ho
  rcases mem_table_src ho with ⟨p, _, hpm, hpy, _, _, _, _, _, hod⟩
  rw [hod]
  exact ⟨hpm, hpy⟩

/-- Witness for C5 at a concrete output row of a concrete run. -/
theorem c5_month_year_filter_witness :
    outRowA.date.month = 3 ∧ outRowA.date.year = 2024 :=
  c5_month_year_filter (show run stdCols [rowA, rowB] 3 2024 = .ok outAB by decide)
    outRowA (by decide)

/-- Claim C6: every row of a successful run's output table has a non-null
URL containing "raterhub" case-insensitively (line 54), and that URL
contains a `taskIds=<digits>` match whose captured digits are exactly the
row's task id (lines 60-64, 94). -/
theorem c6_url_filter_and_extraction {cols : List String} {rows : List Row} {m y : Nat}
    {out : Output} (h : run cols rows m y = .ok out) :
    ∀ o ∈ out.table, containsRaterhub o.url = true ∧ extract_task_id o.url = some o.task_id := by
  rcases run_ok_inv h with ⟨prows, _hp, _hf, hout⟩
  subst hout
  intro o ho
  rcases mem_table_src ho with ⟨p, _, _, _, _, hrat, hext, _, _, _⟩
  exact ⟨hrat, hext⟩

/-- Witness for C6 at a concrete output row of a concrete run. -/
theorem c6_url_filter_and_extraction_witness :
    containsRaterhub outRowA.url = true ∧ extract_task_id outRowA.url = some outRowA.task_id :=
  c6_url_filter_and_extraction (show run stdCols [rowA, rowB] 3 2024 = .ok outAB by decide)
    outRowA (by decide)

/-- Claim C7: every successful run's output table is sorted with
non-decreasing Pacific timestamps (line 102), each rendered at line 103
in the `YYYY-MM-DD HH:MM:SS` format of its instant (an input whose rows
all convert successfully reaches exactly this case — a conversion failure
among surviving rows aborts the run before the sort). -/
theorem c7_output_sorted {cols : List String} {rows : List Row} {m y : Nat}
    {out : Output} (h : run cols rows m y = .ok out) :
    out.table.Pairwise (fun a b => a.pacific ≤ b.pacific) ∧
    ∀ o ∈ out.table, o.rendered = renderTs o.pacific := by
  rcases run_ok_inv h with ⟨prows, _hp, _hf, hout⟩
  subst hout
  constructor
  · exact List.sorted_insertionSort pacLE _
  · intro o ho
    rcases mem_table_src ho with ⟨p, _, _, _, _, _, _, _, hrend, _⟩
    exact hrend

/-- Witness for C7 on a concrete two-task run. -/
theorem c7_output_sorted_witness :
    outAB.table.Pairwise (fun a b => a.pacific ≤ b.pacific) ∧
    ∀ o ∈ outAB.table, o.rendered = renderTs o.pacific :=
  c7_output_sorted (show run stdCols [rowA, rowB] 3 2024 = .ok outAB by decide)

/-- Claim C9: the column check at lines 36-37 precedes all processing:
whatever the rows hold (even unparseable dates), an input lacking any of
the six required columns yields `SchemaError` and nothing else, while a
column set that contains all six (extra columns allowed) is never
rejected by the schema check. -/
theorem c9_schema_check_precedes_all (cols : List String) (rows : List Row) (m y : Nat) :
    ((∃ c ∈ requiredColumns, c ∉ cols) → run cols rows m y = .schemaError) ∧
    ((∀ c ∈ requiredColumns, c ∈ cols) → run cols rows m y ≠ .schemaError) := by
  constructor
  · rintro ⟨c, hc, hnc⟩
    unfold run
    rw [if_neg]
    intro hall
    rw [List.all_eq_true] at hall
    exact hnc (List.mem_of_elem_eq_true (hall c hc))
  · intro hsub
    have hall : requiredColumns.all (fun c => cols.contains c) = true := by
      rw [List.all_eq_true]
      intro c hc
      exact List.elem_eq_true_of_mem (hsub c hc)
    unfold run
    rw [if_pos hall]
    cases parseAllDates rows with
    | error e => exact fun h => RunResult.noConfusion h
    | ok prows =>
      by_cases he : (raterhubFilter (monthFilter m y prows)).isEmpty
      · simp only [he, if_true]
        exact fun h => RunResult.noConfusion h
      · simp only [he, if_false]
        cases firstConvError (dropNullTasks (addDerived (raterhubFilter (monthFilter m y prows)))) with
        | some e => exact fun h => RunResult.noConfusion h
        | none => exact fun h => RunResult.noConfusion h

/-- Witness for C9: a file missing `title` is rejected whatever its rows;
a file with an extra column is not rejected. -/
theorem c9_schema_check_precedes_all_witness :
    run ["order", "id", "date", "time", "url"] [rowA] 3 2024 = .schemaError ∧
    run ("extra" :: stdCols) [rowA] 3 2024 ≠ .schemaError := by
  constructor
  · exact (c9_schema_check_precedes_all ["order", "id", "date", "time", "url"] [rowA] 3 2024).1
      ⟨"title", by decide, by decide⟩
  · exact (c9_schema_check_precedes_all ("extra" :: stdCols) [rowA] 3 2024).2 (by decide)

/-- Claim C10: task-id extraction returns the digit run captured at the
leftmost position where the case-sensitive literal `taskIds=` is
immediately followed by at least one decimal digit; in particular a URL
passing the case-insensitive raterhub filter but containing only the
case-variant `TASKIDS=123` gets a null task id, so its row is excluded
from the output table and from the `total_visits` count. -/
theorem c10_extraction_case_sensitive :
    (∀ (url t : String), extract_task_id url = some t →
      ∃ i, patMatchAt url.data i ∧ (∀ j, j < i → ¬ patMatchAt url.data j) ∧
        t = String.mk (capturedAt url.data i)) ∧
    containsRaterhub "https://raterhub.com/x?TASKIDS=123" = true ∧
    extract_task_id "https://raterhub.com/x?TASKIDS=123" = none ∧
    run stdCols [rowCaseVariant] 3 2024 = .ok ⟨[], 0, 0, none⟩ := by
  refine ⟨?_, by decide, by decide, by decide⟩
  intro url t ht
  exact (extractFrom_spec url.data).1 t ht

/-- Witness for C10's characterization at a concrete URL. -/
theorem c10_extraction_case_sensitive_witness :
    extract_task_id "x?taskIds=907" = some "907" ∧
    ∃ i, patMatchAt "x?taskIds=907".data i ∧
      (∀ j, j < i → ¬ patMatchAt "x?taskIds=907".data j) ∧
      "907" = String.mk (capturedAt "x?taskIds=907".data i) :=
  ⟨rfl, c10_extraction_case_sensitive.1 "x?taskIds=907" "907" rfl⟩

end RaterHub
